import Mathlib

/-!
Verification development for the secret-santa assignment and clue engine.

The definitions below are a shallow embedding of the TypeScript sources
`src/lib/assignments.ts`, `src/lib/crypto.ts` and the clue-generation
module.  JavaScript values decoded from JSON are modelled by the
inductive type `JValue`; the AES-plus-JSON serialisation pipeline of
`crypto.ts` is modelled by an abstract reversible cipher (`Cipher`),
matching the spec contract that any reversible symmetric scheme may be
used; randomness (the Fisher-Yates shuffle of the receiver pool, the
comparator shuffle of the clue list, the random candidate pick) is
modelled by explicit parameters: a stream of shuffled receiver
orderings, a shuffle function on clue lists, and a pick index.
-/

/-- Participant record, from the Prisma-derived type in `assignments.ts`. -/
structure Participant where
  id : String
  gameId : String
  name : String
  email : String
  gender : String
  yearMoved : Int
deriving DecidableEq, Repr

/-- Assignment record `{giverId, receiverId}` from `crypto.ts`. -/
structure Assignment where
  giverId : String
  receiverId : String
deriving DecidableEq, Repr

/-- JSON values as produced by `JSON.parse`; numbers restricted to the
integers that occur in this code base. -/
inductive JValue where
  | jstr (s : String)
  | jnum (n : Int)
  | jbool (b : Bool)
  | jnull
  | jarr (xs : List JValue)
  | jobj (fields : List (String × JValue))

/-- JSON value of one assignment (field insertion order as in the object
literal of `attemptAssignment`). -/
def assignmentToJson (a : Assignment) : JValue :=
  .jobj [("giverId", .jstr a.giverId), ("receiverId", .jstr a.receiverId)]

/-- Serialisation of an assignment list to its JSON value, modelling
`JSON.stringify(assignments)` at the value level. -/
def assignmentsToJson (as : List Assignment) : JValue :=
  .jarr (as.map assignmentToJson)

/-- Reading one JSON value back as an `Assignment`: succeeds exactly on
the canonical shape produced by `assignmentsToJson`. -/
def jsonToAssignment : JValue → Option Assignment
  | .jobj [("giverId", .jstr g), ("receiverId", .jstr r)] => some ⟨g, r⟩
  | _ => none

/-- Reading each element of a JSON array as an `Assignment`. -/
def jsonListToAssignments : List JValue → Option (List Assignment)
  | [] => some []
  | x :: xs =>
    match jsonToAssignment x, jsonListToAssignments xs with
    | some a, some t => some (a :: t)
    | _, _ => none

/-- Reading a JSON value back as an assignment list. -/
def jsonToAssignments : JValue → Option (List Assignment)
  | .jarr xs => jsonListToAssignments xs
  | _ => none

/-- Abstract reversible cipher standing for the composite
`JSON.stringify` + `CryptoJS.AES.encrypt` (for `enc`) and
`CryptoJS.AES.decrypt` + UTF-8 decode + `JSON.parse` (for `dec`) pipeline
of `crypto.ts` under the process-wide key.  `dec` returns `none` when any
stage of the pipeline throws.  The field `dec_enc` is the library
round-trip contract the spec states for the encoder. -/
structure Cipher (Token : Type) where
  enc : JValue → Token
  dec : Token → Option JValue
  dec_enc : ∀ v, dec (enc v) = some v

/-- The trivial reversible scheme (tokens are the JSON values themselves);
one concrete instance of the spec contract, used for witnesses. -/
def idCipher : Cipher JValue :=
  ⟨fun v => v, fun v => some v, fun _ => rfl⟩

/-- Embedding of `encryptAssignments` from `crypto.ts`. -/
def encryptAssignments {T : Type} (c : Cipher T) (assignments : List Assignment) : T :=
  c.enc (assignmentsToJson assignments)

/-- Embedding of `decryptAssignments` from `crypto.ts`: the try/catch
around decrypt + `JSON.parse` maps every pipeline failure to the thrown
message; on success the parsed value is returned unchecked (the source
performs no shape validation). -/
def decryptAssignments {T : Type} (c : Cipher T) (encryptedData : T) : Except String JValue :=
  match c.dec encryptedData with
  | none => .error "Invalid assignment data"
  | some v => .ok v

/-- JavaScript member access `x[k]` on a JSON value, as used by
`getAssignmentForParticipant`: `none` stands for `undefined` (member
access on `null` is handled separately by the caller, since it throws). -/
def jsGetField : JValue → String → Option JValue
  | .jobj fields, k => (fields.find? (fun f => f.1 == k)).map (fun f => f.2)
  | _, _ => none

/-- The `assignments.find(a => a.giverId === participantId)` scan of
`getAssignmentForParticipant`.  `Except.error` models an uncaught JS
`TypeError` (member access on `null`), which the surrounding bare
`catch` of the source turns into `null`. -/
def findGiverLoop (pid : String) : List JValue → Except Unit (Option JValue)
  | [] => .ok none
  | x :: xs =>
    match x with
    | .jnull => .error ()
    | _ =>
      match jsGetField x "giverId" with
      | some (.jstr s) => if s == pid then .ok (some x) else findGiverLoop pid xs
      | _ => findGiverLoop pid xs

/-- Embedding of `getAssignmentForParticipant` from `crypto.ts`.  The
whole body is inside `try ... catch { return null }`, so the embedding is
total; `none` conflates the `null` result with JS `undefined` (the two
are distinguishable in JS only for tokens that decode to a matching
object lacking a string `receiverId`, a case outside every claim). -/
def getAssignmentForParticipant {T : Type} (c : Cipher T) (encryptedData : T)
    (participantId : String) : Option JValue :=
  match decryptAssignments c encryptedData with
  | .error _ => none
  | .ok v =>
    match v with
    | .jarr xs =>
      match findGiverLoop participantId xs with
      | .error _ => none
      | .ok none => none
      | .ok (some x) => jsGetField x "receiverId"
    | _ => none

/-- Decoding a token all the way back to a typed assignment list (the
"AssignmentSet decoded from the token" of the spec). -/
def decodeToken {T : Type} (c : Cipher T) (t : T) : Option (List Assignment) :=
  (c.dec t).bind jsonToAssignments

/-- Constraint record from `assignments.ts` (`AssignmentConstraint.type`). -/
inductive ConstraintType where
  | no_same_gender
  | no_couples
  | custom
deriving DecidableEq, Repr

/-- Constraint payload (`AssignmentConstraint.data`). -/
structure ConstraintData where
  participant1 : String
  participant2 : String
  reason : Option String
deriving DecidableEq, Repr

/-- Embedding of the `AssignmentConstraint` interface. -/
structure AssignmentConstraint where
  type : ConstraintType
  data : Option ConstraintData
deriving DecidableEq, Repr

/-- The distinct `Error`s thrown by `generateAssignments` /
`attemptAssignment`, one constructor per `throw` site. -/
inductive GenError where
  | insufficientParticipants
  | noValidReceiver (giverName : String)
  | generationFailed
deriving DecidableEq, Repr

/-- Embedding of `isValidAssignment` from `assignments.ts`.  The
`existingAssignments` parameter is kept because the source takes it,
although (as in the source) the body never uses it. -/
def isValidAssignment (giver receiver : Participant)
    (existingAssignments : List Assignment)
    (constraints : List AssignmentConstraint) : Bool :=
  if giver.id == receiver.id then false
  else constraints.all fun c =>
    match c.type with
    | .no_same_gender => !(giver.gender == receiver.gender)
    | .no_couples =>
      match c.data with
      | some d =>
        !((giver.name == d.participant1 && receiver.name == d.participant2) ||
          (giver.name == d.participant2 && receiver.name == d.participant1))
      | none => true
    | .custom => true

/-- The inner receiver scan of `attemptAssignment`: find the first pool
entry that `isValidAssignment` accepts and splice it out. -/
def pickFirst (giver : Participant) (acc : List Assignment)
    (constraints : List AssignmentConstraint) :
    List Participant → Option (Participant × List Participant)
  | [] => none
  | r :: rs =>
    if isValidAssignment giver r acc constraints then some (r, rs)
    else
      match pickFirst giver acc constraints rs with
      | none => none
      | some (x, rest) => some (x, r :: rest)

/-- The giver loop of `attemptAssignment`: each giver in input order
takes the first valid receiver from the remaining pool; a giver with no
valid receiver throws. -/
def attemptGo (constraints : List AssignmentConstraint) :
    List Participant → List Participant → List Assignment →
    Except GenError (List Assignment)
  | [], _pool, acc => .ok acc
  | g :: gs, pool, acc =>
    match pickFirst g acc constraints pool with
    | none => .error (.noValidReceiver g.name)
    | some (r, pool') => attemptGo constraints gs pool' (acc ++ [⟨g.id, r.id⟩])

/-- Embedding of `attemptAssignment` from `assignments.ts`; the
Fisher-Yates shuffled copy of the participant list is passed in as
`receivers` (the shuffle itself is uniform over permutations, so claims
quantify over receiver orderings that are permutations of the input). -/
def attemptAssignment (participants receivers : List Participant)
    (constraints : List AssignmentConstraint) : Except GenError (List Assignment) :=
  attemptGo constraints participants receivers []

/-- The retry loop of `generateAssignments`: `remaining` counts attempts
left before the 100-attempt bound is exhausted; `i` indexes the shuffle
stream, one fresh shuffle per `attemptAssignment` call.  On the 100th
failure the source retries once with all constraints dropped and lets
any error of that final attempt escape. -/
def genLoop (participants : List Participant)
    (constraints : List AssignmentConstraint)
    (shuffles : Nat → List Participant) :
    Nat → Nat → Except GenError (List Assignment)
  | 0, _ => .error .generationFailed
  | 1, i =>
    match attemptAssignment participants (shuffles i) constraints with
    | .ok as => .ok as
    | .error _ => attemptAssignment participants (shuffles (i + 1)) []
  | (r + 2), i =>
    match attemptAssignment participants (shuffles i) constraints with
    | .ok as => .ok as
    | .error _ => genLoop participants constraints shuffles (r + 1) (i + 1)

/-- Embedding of `generateAssignments` from `assignments.ts` (the
100-attempt retry with relaxed-constraint fallback, then encryption of
the successful assignment list). -/
def generateAssignments {T : Type} (c : Cipher T)
    (participants : List Participant)
    (constraints : List AssignmentConstraint)
    (shuffles : Nat → List Participant) : Except GenError T :=
  if participants.length < 2 then .error .insufficientParticipants
  else (genLoop participants constraints shuffles 100 0).map
    (fun as => c.enc (assignmentsToJson as))

/-- First-occurrence deduplication with an accumulator of already seen
elements; models JS `new Set(list)` iteration order. -/
def firstDedupAux [BEq α] (seen : List α) : List α → List α
  | [] => []
  | a :: t =>
    if seen.contains a then firstDedupAux seen t
    else a :: firstDedupAux (a :: seen) t

/-- JS `[...new Set(list)]`. -/
def firstDedup [BEq α] (l : List α) : List α :=
  firstDedupAux [] l

/-- Embedding of `validateAssignments` from `assignments.ts`: set sizes
and set membership only (no multiplicity check on the list itself). -/
def validateAssignments (assignments : List Assignment)
    (participants : List Participant) : Bool :=
  let givers := firstDedup (assignments.map (fun a => a.giverId))
  let receivers := firstDedup (assignments.map (fun a => a.receiverId))
  let participantIds := firstDedup (participants.map (fun p => p.id))
  givers.length == participants.length &&
  receivers.length == participants.length &&
  givers.all (fun g => participantIds.contains g) &&
  receivers.all (fun r => participantIds.contains r)

/-- Exclusion pair as passed to `generateClues`. -/
structure Exclusion where
  participant1 : String
  participant2 : String
deriving DecidableEq, Repr

/-- Clue category (`ClueData.type` in the source). -/
inductive ClueType where
  | gender
  | year
  | count
  | specific
deriving DecidableEq, Repr

/-- Clue difficulty. -/
inductive Difficulty where
  | easy
  | medium
  | hard
deriving DecidableEq, Repr

/-- The `ClueData` record of the clue module. -/
structure ClueData where
  text : String
  type : ClueType
  difficulty : Difficulty
deriving DecidableEq, Repr

/-- ASCII lowercasing of one character; the JS `toLowerCase` restricted
to the ASCII data this code base manipulates. -/
def charToLower (c : Char) : Char :=
  if 65 ≤ c.toNat && c.toNat ≤ 90 then Char.ofNat (c.toNat + 32) else c

/-- JS `s.toLowerCase()` (ASCII fragment). -/
def jsToLower (s : String) : String :=
  ⟨s.data.map charToLower⟩

/-- Membership of `sub` as a contiguous run of `l`. -/
def isInfixList (sub : List Char) : List Char → Bool
  | [] => sub.isEmpty
  | c :: t => sub.isPrefixOf (c :: t) || isInfixList sub t

/-- JS `s.includes(sub)`. -/
def jsIncludes (s sub : String) : Bool :=
  isInfixList sub.data s.data

/-- JS `Map.get` for the participant map built by
`new Map(participants.map(p => [p.id, p]))`: on duplicate ids the last
entry wins. -/
def pmGet (participants : List Participant) (id : String) : Option Participant :=
  participants.foldl (fun acc p => if p.id == id then some p else acc) none

/-- JS `Array.from(participantMap.values())`: keys in first-insertion
order, each mapped to its last-inserted value. -/
def mapValues (participants : List Participant) : List Participant :=
  (firstDedup (participants.map (fun p => p.id))).filterMap (pmGet participants)

/-- JS `Math.min(...l)` for the nonempty integer lists this code feeds it
(the `0` default is never read: every use is guarded by emptiness of the
surrounding data). -/
def listMinInt : List Int → Int
  | [] => 0
  | x :: t => t.foldl min x

/-- JS `Math.max(...l)`, same proviso as `listMinInt`. -/
def listMaxInt : List Int → Int
  | [] => 0
  | x :: t => t.foldl max x

/-- JS `Math.max(...l)` on count lists (guarded nonempty in the source). -/
def listMaxNat (l : List Nat) : Nat :=
  l.foldr max 0

/-- JS `String.prototype.split` with a one-character separator. -/
def splitOnChar (sep : Char) : List Char → List (List Char)
  | [] => [[]]
  | c :: t =>
    match splitOnChar sep t with
    | [] => [[]]
    | h :: r => if c == sep then [] :: h :: r else (c :: h) :: r

/-- JS `email.split(sep)[1]` (`none` models `undefined`). -/
def emailDomain (s : String) : Option String :=
  ((splitOnChar '@' s.data).map (fun l => String.mk l)).get? 1

/-- Stable insertion of one participant into a list already sorted by
descending `yearMoved`. -/
def insertByYearDesc (x : Participant) : List Participant → List Participant
  | [] => [x]
  | y :: ys =>
    if y.yearMoved ≥ x.yearMoved then y :: insertByYearDesc x ys
    else x :: y :: ys

/-- JS `participants.sort((a, b) => b.yearMoved - a.yearMoved)`: stable
descending sort by arrival year. -/
def sortByYearDesc (l : List Participant) : List Participant :=
  l.foldl (fun acc x => insertByYearDesc x acc) []

/-- One step of building the year histogram `Map` in insertion order. -/
def bumpYear (l : List (Int × Nat)) (y : Int) : List (Int × Nat) :=
  match l with
  | [] => [(y, 1)]
  | (a, b) :: t => if a == y then (a, b + 1) :: t else (a, b) :: bumpYear t y

/-- The `genderDistribution` field of the analysis record. -/
structure GenderDistribution where
  male : Nat
  female : Nat
deriving DecidableEq, Repr

/-- The `ParticipantAnalysis` record of the clue module.  The JS
`-Infinity` that `Math.max()` yields on an empty histogram is modelled by
`0` for `mostCommonYearCount`; the two behave identically in every
downstream comparison.  The float thresholds `> 0.7` and the skew ratio
are modelled by exact integer inequalities, which agree with the IEEE
comparisons of the source for every realistic population size. -/
structure ParticipantAnalysis where
  yearDistribution : List (Int × Nat)
  genderDistribution : GenderDistribution
  mostCommonYear : Int
  mostCommonYearCount : Nat
  uniqueYears : Nat
  totalParticipants : Nat
  excludedPairsCount : Nat
  isYearDistributionSkewed : Bool
  isGenderBalanced : Bool
deriving DecidableEq, Repr

/-- Embedding of `analyzeParticipantDistribution`. -/
def analyzeParticipantDistribution (participants : List Participant)
    (exclusions : List Exclusion) : ParticipantAnalysis :=
  let yearDistribution := participants.foldl (fun l p => bumpYear l p.yearMoved) []
  let males := participants.countP (fun p => jsToLower p.gender == "male")
  let females := participants.countP (fun p =>
    !(jsToLower p.gender == "male") && jsToLower p.gender == "female")
  let yearCounts := yearDistribution.map (fun e => e.2)
  let mostCommonYearCount := listMaxNat yearCounts
  let mostCommonYear :=
    ((yearDistribution.find? (fun e => e.2 == mostCommonYearCount)).map (fun e => e.1)).getD 0
  { yearDistribution := yearDistribution
    genderDistribution := { male := males, female := females }
    mostCommonYear := mostCommonYear
    mostCommonYearCount := mostCommonYearCount
    uniqueYears := yearDistribution.length
    totalParticipants := participants.length
    excludedPairsCount := exclusions.length
    isYearDistributionSkewed := 10 * mostCommonYearCount > 7 * participants.length
    isGenderBalanced := ((males : Int) - (females : Int)).natAbs ≤ 1 }

/-- The inner `isGenderPatternObvious` closure of
`generateGenderGiftingClues` (the unused `excludedPairs` set of the
source is omitted as dead code). -/
def isGenderPatternObvious (participantsSrc : List Participant)
    (exclusions : List Exclusion) (pattern : String) : Bool :=
  let participants := mapValues participantsSrc
  let males := participants.filter (fun p => jsToLower p.gender == "male")
  let females := participants.filter (fun p => jsToLower p.gender == "female")
  if jsIncludes pattern "women are giving gifts to other women" && females.length == 2 then
    exclusions.any (fun e =>
      females.any (fun f => f.name == e.participant1) &&
      females.any (fun f => f.name == e.participant2))
  else if jsIncludes pattern "men are giving gifts to other men" && males.length == 2 then
    exclusions.any (fun e =>
      males.any (fun m => m.name == e.participant1) &&
      males.any (fun m => m.name == e.participant2))
  else false

/-- Directed gender-pair tally over the assignments (the loop at the top
of `generateGenderGiftingClues`), for one ordered pair of lowercased
genders. -/
def genderPairCount (assignments : List Assignment)
    (participants : List Participant) (gGender rGender : String) : Nat :=
  assignments.countP fun a =>
    match pmGet participants a.giverId, pmGet participants a.receiverId with
    | some g, some r => jsToLower g.gender == gGender && jsToLower r.gender == rGender
    | _, _ => false

/-- Embedding of `generateGenderGiftingClues`. -/
def generateGenderGiftingClues (assignments : List Assignment)
    (participants : List Participant) (exclusions : List Exclusion) : List ClueData :=
  let menToWomen := genderPairCount assignments participants "male" "female"
  let womenToMen := genderPairCount assignments participants "female" "male"
  let menToMen := genderPairCount assignments participants "male" "male"
  let womenToWomen := genderPairCount assignments participants "female" "female"
  (if menToWomen == 0 && !isGenderPatternObvious participants exclusions "men to women" then
    [⟨"No men are giving gifts to women", .gender, .medium⟩]
   else if menToWomen == 1 then
    [⟨"Exactly one man is giving a gift to a woman", .gender, .easy⟩]
   else if menToWomen > 1 then
    [⟨toString menToWomen ++ " men are giving gifts to women", .gender, .easy⟩]
   else []) ++
  (if womenToMen == 0 && !isGenderPatternObvious participants exclusions "women to men" then
    [⟨"No women are giving gifts to men", .gender, .medium⟩]
   else if womenToMen == 1 then
    [⟨"Exactly one woman is giving a gift to a man", .gender, .easy⟩]
   else if womenToMen > 1 then
    [⟨toString womenToMen ++ " women are giving gifts to men", .gender, .easy⟩]
   else []) ++
  (if menToMen == 0 &&
      !isGenderPatternObvious participants exclusions "men are giving gifts to other men" then
    [⟨"No men are giving gifts to other men", .gender, .medium⟩]
   else []) ++
  (if womenToWomen == 0 &&
      !isGenderPatternObvious participants exclusions "women are giving gifts to other women" then
    [⟨"No women are giving gifts to other women", .gender, .medium⟩]
   else [])

/-- The `yearAssignments` projection shared by the year and specific
generators: assignments whose giver and receiver both resolve in the
participant map, as (giver, receiver) pairs. -/
def yearAssignmentPairs (assignments : List Assignment)
    (participants : List Participant) : List (Participant × Participant) :=
  assignments.filterMap fun a =>
    match pmGet participants a.giverId, pmGet participants a.receiverId with
    | some g, some r => some (g, r)
    | _, _ => none

/-- Embedding of `generateYearGiftingClues`. -/
def generateYearGiftingClues (assignments : List Assignment)
    (participants : List Participant) : List ClueData :=
  let yearAssignments := yearAssignmentPairs assignments participants
  let years := (mapValues participants).map (fun p => p.yearMoved)
  let earliestYear := listMinInt years
  let latestYear := listMaxInt years
  let earliestMovers := (mapValues participants).filter (fun p => p.yearMoved == earliestYear)
  let latestMovers := (mapValues participants).filter (fun p => p.yearMoved == latestYear)
  (match earliestMovers with
   | [earliestMover] =>
     match yearAssignments.find? (fun a => a.1.id == earliestMover.id) with
     | some a =>
       if !(a.2.yearMoved == earliestYear) then
         [⟨"The longest Montreal resident (since " ++ toString earliestYear ++
           ") is giving to someone who arrived in " ++ toString a.2.yearMoved,
           .year, .medium⟩]
       else []
     | none => []
   | _ => []) ++
  (match latestMovers with
   | [latestMover] =>
     match yearAssignments.find? (fun a => a.2.id == latestMover.id) with
     | some a =>
       if !(a.1.yearMoved == latestYear) then
         [⟨"The newest Montreal resident (arrived " ++ toString latestYear ++
           ") is receiving from someone who moved in " ++ toString a.1.yearMoved,
           .year, .medium⟩]
       else []
     | none => []
   | _ => []) ++
  (let uniqueYears := firstDedup
     ((yearAssignments.map (fun a => a.1.yearMoved)) ++
      (yearAssignments.map (fun a => a.2.yearMoved)))
   if uniqueYears.length ≥ 3 then
     let sameYearCount := yearAssignments.countP (fun a => a.1.yearMoved == a.2.yearMoved)
     let olderToNewer := yearAssignments.countP (fun a => a.1.yearMoved < a.2.yearMoved)
     let newerToOlder := yearAssignments.countP (fun a => a.1.yearMoved > a.2.yearMoved)
     (if sameYearCount == 0 then
       [⟨"No one is giving a gift to someone who moved to Montreal in the same year as them",
         .year, .easy⟩]
      else if sameYearCount == 1 then
       [⟨"Exactly one person is giving a gift to someone who moved to Montreal in the same year as them",
         .year, .medium⟩]
      else if sameYearCount > 1 && sameYearCount < yearAssignments.length - 1 then
       [⟨toString sameYearCount ++
         " people are giving gifts to someone who moved to Montreal in the same year as them",
         .year, .hard⟩]
      else []) ++
     (if olderToNewer == 0 && yearAssignments.length ≥ 4 then
       [⟨"No longtime Montreal residents are giving gifts to newer residents", .year, .medium⟩]
      else []) ++
     (if newerToOlder == 0 && yearAssignments.length ≥ 4 then
       [⟨"No newer Montreal residents are giving gifts to longtime residents", .year, .medium⟩]
      else [])
   else [])

/-- Embedding of `generateSpecificPatternClues`; `pickIdx` supplies the
`Math.random()` candidate pick (reduced modulo the candidate count, which
ranges over exactly the indices the source can draw).  The `.sort()` the
source applies to the deduplicated year list is dropped: only the min,
max and membership of that list are ever used. -/
def generateSpecificPatternClues (assignments : List Assignment)
    (participants : List Participant) (pickIdx : Nat) : List ClueData :=
  let years := firstDedup ((mapValues participants).map (fun p => p.yearMoved))
  let yearAssignments := (yearAssignmentPairs assignments participants).filter
    (fun a => !(a.1.yearMoved == a.2.yearMoved))
  let uniqueGiverYears := firstDedup (yearAssignments.map (fun a => a.1.yearMoved))
  let uniqueReceiverYears := firstDedup (yearAssignments.map (fun a => a.2.yearMoved))
  (if yearAssignments.length > 0 && uniqueGiverYears.length ≥ 2 &&
      uniqueReceiverYears.length ≥ 2 then
    match yearAssignments.get? (pickIdx % yearAssignments.length) with
    | some ra =>
      let yearGap := (ra.1.yearMoved - ra.2.yearMoved).natAbs
      if yearGap > 1 then
        let sameYearGivers := yearAssignments.filter (fun a => a.1.yearMoved == ra.1.yearMoved)
        if sameYearGivers.length > 1 || uniqueGiverYears.length > 2 then
          [⟨"Someone who moved to Montreal in " ++ toString ra.1.yearMoved ++
            " is giving to someone who arrived in " ++ toString ra.2.yearMoved,
            .year, .hard⟩]
        else []
      else []
    | none => []
   else []) ++
  (if years.length ≥ 3 then
    let oldestYear := listMinInt years
    let newestYear := listMaxInt years
    let middleYears := years.filter (fun y => !(y == oldestYear) && !(y == newestYear))
    if middleYears.length > 0 then
      let someoneGivingToMiddle := assignments.any fun a =>
        middleYears.contains (((pmGet participants a.receiverId).map
          (fun r => r.yearMoved)).getD 0)
      if someoneGivingToMiddle then
        [⟨"At least one person is giving to someone who moved to Montreal between " ++
          toString (oldestYear + 1) ++ " and " ++ toString (newestYear - 1),
          .year, .medium⟩]
      else []
    else []
   else [])

/-- The excluded-pairs-in-majority-year tally inside `isClueObvious`. -/
def excludedPairsInMajorityYear (participants : List Participant)
    (analysis : ParticipantAnalysis) (exclusions : List Exclusion) : Nat :=
  exclusions.countP fun e =>
    (match (mapValues participants).find? (fun p => p.name == e.participant1) with
     | some p1 => p1.yearMoved == analysis.mostCommonYear
     | none => false) &&
    (match (mapValues participants).find? (fun p => p.name == e.participant2) with
     | some p2 => p2.yearMoved == analysis.mostCommonYear
     | none => false)

/-- Embedding of `isClueObvious`.  The assignments parameter is kept
unused as in the source.  The float comparisons
`ratio >= count * 0.5` and `ratio > 0.8` are modelled by the exact
integer inequalities they compute. -/
def isClueObvious (clue : ClueData) (assignments : List Assignment)
    (participants : List Participant) (analysis : ParticipantAnalysis)
    (exclusions : List Exclusion) : Bool :=
  let clueText := jsToLower clue.text
  let totalGender := analysis.genderDistribution.male + analysis.genderDistribution.female
  if clue.type == ClueType.year && analysis.isYearDistributionSkewed &&
     (jsIncludes clueText "different year" || jsIncludes clueText "same year" ||
      jsIncludes clueText "who moved to montreal in the same year as them") &&
     2 * excludedPairsInMajorityYear participants analysis exclusions ≥
       analysis.excludedPairsCount then
    true
  else if clue.type == ClueType.year && analysis.uniqueYears ≤ 2 then
    true
  else if clue.type == ClueType.gender && totalGender > 0 &&
      5 * max analysis.genderDistribution.male analysis.genderDistribution.female >
        4 * totalGender then
    true
  else if clue.type == ClueType.gender && analysis.excludedPairsCount > 0 &&
      totalGender ≤ 4 then
    true
  else if clue.type == ClueType.count && analysis.totalParticipants ≤ 4 &&
      jsIncludes clueText "there are" && jsIncludes clueText "people" then
    true
  else false

/-- Vowel count of a name (`name.toLowerCase().match(/[aeiou]/g)`). -/
def countVowels (s : String) : Nat :=
  (jsToLower s).data.countP fun c =>
    c == 'a' || c == 'e' || c == 'i' || c == 'o' || c == 'u'

/-- JS rendering of `Math.round((s / n) * 10) / 10` (average with one
decimal digit); `"NaN"` when the population is empty.  Rounding is
modelled exactly over the rationals, which matches the IEEE computation
for the name lengths at play. -/
def formatAvgTenths (s n : Nat) : String :=
  if n == 0 then "NaN"
  else
    let r := (20 * s + n) / (2 * n)
    if r % 10 == 0 then toString (r / 10)
    else toString (r / 10) ++ "." ++ toString (r % 10)

/-- Embedding of `generateSmartBackupClues`. -/
def generateSmartBackupClues (assignments : List Assignment)
    (participants : List Participant) (analysis : ParticipantAnalysis)
    (exclusions : List Exclusion) (needed : Nat) : List ClueData :=
  let values := mapValues participants
  let clues :=
    (if needed > 0 && analysis.totalParticipants ≥ 5 then
      let alphabeticalGiving := assignments.countP fun a =>
        match pmGet participants a.giverId, pmGet participants a.receiverId with
        | some g, some r => decide (jsToLower g.name < jsToLower r.name)
        | _, _ => false
      if alphabeticalGiving > 0 && !(alphabeticalGiving == analysis.totalParticipants) then
        [⟨toString alphabeticalGiving ++
          (if alphabeticalGiving == 1 then " person is" else " people are") ++
          " giving gifts to someone whose name comes later in the alphabet",
          .specific, .hard⟩]
      else []
     else []) ++
    (if needed > 1 then
      let longToShortNames := assignments.countP fun a =>
        match pmGet participants a.giverId, pmGet participants a.receiverId with
        | some g, some r => decide (g.name.length > r.name.length)
        | _, _ => false
      if longToShortNames > 0 then
        [⟨toString longToShortNames ++
          (if longToShortNames == 1 then " person with a longer name is"
           else " people with longer names are") ++
          " giving gifts to someone with a shorter name",
          .specific, .hard⟩]
      else []
     else []) ++
    (if needed > 2 && !analysis.isYearDistributionSkewed then
      let yearGaps := (assignments.map fun a =>
        match pmGet participants a.giverId, pmGet participants a.receiverId with
        | some g, some r => (g.yearMoved - r.yearMoved).natAbs
        | _, _ => 0).filter (fun gap => gap > 0)
      if yearGaps.length > 0 then
        let maxGap := listMaxNat yearGaps
        if maxGap ≥ 2 then
          [⟨"The biggest time gap between a gift-giver and receiver\x27s Montreal arrival dates is " ++
            toString maxGap ++ " years", .year, .hard⟩]
        else []
      else []
     else []) ++
    (if needed > 3 then
      let emailDomains := values.map (fun p => emailDomain p.email)
      let uniqueDomains := firstDedup emailDomains
      if uniqueDomains.length > 1 && uniqueDomains.length < values.length then
        let domainCounts := uniqueDomains.map (fun d => emailDomains.countP (fun x => x == d))
        let mostCommonDomainCount := listMaxNat domainCounts
        [⟨toString mostCommonDomainCount ++ " participants share the same email provider",
          .specific, .medium⟩]
      else []
     else []) ++
    (if needed > 4 then
      let vowelCounts := values.map (fun p => countVowels p.name)
      [⟨"The average number of vowels in participants\x27 names is " ++
        formatAvgTenths vowelCounts.sum vowelCounts.length, .specific, .medium⟩]
     else []) ++
    (if needed > 5 then
      let sortedByYear := sortByYearDesc values
      let recentArrivals := sortedByYear.take ((values.length + 2) / 3)
      let recentArrivalsReceiving := assignments.countP fun a =>
        recentArrivals.any (fun p => p.id == a.receiverId)
      if recentArrivalsReceiving > 0 then
        [⟨toString recentArrivalsReceiving ++
          " of the most recent Montreal arrivals are receiving gifts", .year, .medium⟩]
      else []
     else [])
  let nonObviousBackups := clues.filter fun c =>
    !isClueObvious c assignments participants analysis exclusions
  nonObviousBackups.take needed

/-- The body of `generateClues` after a successful decode: candidate
generation, obviousness filtering, the comparator shuffle (supplied as
`shuffleClues`), backfill, and truncation to ten. -/
def generateCluesBody (assignments : List Assignment)
    (participants : List Participant) (exclusions : List Exclusion)
    (shuffleClues : List ClueData → List ClueData) (pickIdx : Nat) : List ClueData :=
  let analysis := analyzeParticipantDistribution participants exclusions
  let allClues :=
    generateGenderGiftingClues assignments participants exclusions ++
    generateYearGiftingClues assignments participants ++
    generateSpecificPatternClues assignments participants pickIdx
  let nonObviousClues := allClues.filter fun clue =>
    !isClueObvious clue assignments participants analysis exclusions
  let shuffled := shuffleClues nonObviousClues
  let withBackups :=
    if shuffled.length < 10 then
      shuffled ++ generateSmartBackupClues assignments participants analysis exclusions
        (10 - shuffled.length)
    else shuffled
  withBackups.take 10

/-- Embedding of `generateClues`: decode the token, then run the clue
pipeline.  The `"Invalid assignment data"` error is the propagated
`DecodeError`; `"TypeError"` models the uncaught JS exceptions the body
raises on decodable tokens that are not canonical assignment arrays (no
claim exercises that branch, and the source likewise only meaningfully
supports canonically-shaped decodes). -/
def generateClues {T : Type} (c : Cipher T) (encryptedAssignments : T)
    (participants : List Participant) (exclusions : List Exclusion)
    (shuffleClues : List ClueData → List ClueData) (pickIdx : Nat) :
    Except String (List ClueData) :=
  match c.dec encryptedAssignments with
  | none => .error "Invalid assignment data"
  | some v =>
    match jsonToAssignments v with
    | none => .error "TypeError"
    | some assignments =>
      .ok (generateCluesBody assignments participants exclusions shuffleClues pickIdx)

/-- The `no_couples` matching test of `isValidAssignment`, as a predicate
on a constraint list and a (giver name, receiver name) pair: true when
some exclusion constraint forbids the pair in either direction. -/
def excludedPair (constraints : List AssignmentConstraint) (n1 n2 : String) : Bool :=
  constraints.any fun c =>
    match c.type, c.data with
    | .no_couples, some d =>
      (n1 == d.participant1 && n2 == d.participant2) ||
      (n1 == d.participant2 && n2 == d.participant1)
    | _, _ => false

/-- Decidable statement of the spec property "valid derangement": every
participant appears exactly once as a giver and exactly once as a
receiver, and no assignment is a self-assignment.  Spec-side predicate,
used to compare engine output with the claims. -/
def specValidDerangement (as : List Assignment) (ps : List Participant) : Bool :=
  ps.all (fun p =>
    as.countP (fun a => a.giverId == p.id) == 1 &&
    as.countP (fun a => a.receiverId == p.id) == 1) &&
  as.all (fun a => !(a.giverId == a.receiverId))

/-- Decidable statement of the spec property "constraint respect": no
assignment joins two participants whose names form an excluded pair, in
either direction.  Spec-side predicate. -/
def specRespectsExclusions (as : List Assignment) (ps : List Participant)
    (constraints : List AssignmentConstraint) : Bool :=
  as.all fun a =>
    match ps.find? (fun p => p.id == a.giverId),
          ps.find? (fun p => p.id == a.receiverId) with
    | some g, some r => !(excludedPair constraints g.name r.name)
    | _, _ => true

/-- Fixture builder for concrete scenarios. -/
def mkP (id name gender : String) (yearMoved : Int) : Participant :=
  ⟨id, "game1", name, id ++ "@example.com", gender, yearMoved⟩

/-- Fixture participants for concrete scenarios. -/
def pA : Participant := mkP "a" "Alice" "female" 2015

def pB : Participant := mkP "b" "Bob" "male" 2016

def pC : Participant := mkP "c" "Carol" "female" 2017

def pD : Participant := mkP "d" "Dave" "male" 2018

def pE : Participant := mkP "e" "Eve" "female" 2019

/-- Fixture participant sharing the id of `pB` (duplicate-id scenario). -/
def pB2 : Participant := mkP "b" "Bert" "male" 2020

/-- All-male fixture trio (for a scenario where `no_same_gender` can
never be satisfied). -/
def pAm : Participant := mkP "a" "Axel" "male" 2015

def pBm : Participant := mkP "b" "Bill" "male" 2016

def pCm : Participant := mkP "c" "Carl" "male" 2017

/-- Fixture list of three distinct participants. -/
def ps3 : List Participant := [pA, pB, pC]

/-- Constant shuffle stream for the `ps3` scenario. -/
def sh3 : Nat → List Participant := fun _ => [pB, pC, pA]

/-- Assignment list the engine computes on the `ps3` scenario. -/
def as3 : List Assignment := [⟨"a", "b"⟩, ⟨"b", "c"⟩, ⟨"c", "a"⟩]

/-- Token for the `ps3` scenario under `idCipher`. -/
def tok3 : JValue := assignmentsToJson as3

/-- Fixture list containing a duplicated participant id ("b" twice). -/
def psDup : List Participant := [pA, pB, pB2, pC]

/-- Constant shuffle stream for the duplicate-id scenario. -/
def shDup : Nat → List Participant := fun _ => [pB, pB2, pA, pC]

/-- Assignment list the engine computes on the duplicate-id scenario. -/
def asDup : List Assignment := [⟨"a", "b"⟩, ⟨"b", "a"⟩, ⟨"b", "c"⟩, ⟨"c", "b"⟩]

/-- Token for the duplicate-id scenario under `idCipher`. -/
def tokDup : JValue := assignmentsToJson asDup

/-- All-male fixture trio as a list. -/
def psM : List Participant := [pAm, pBm, pCm]

/-- A `no_same_gender` constraint (unsatisfiable on `psM`). -/
def csG : List AssignmentConstraint := [⟨.no_same_gender, none⟩]

/-- Identity-order shuffle stream for `psM` (makes the relaxed fallback
attempt strand the last giver with only themself). -/
def shM : Nat → List Participant := fun _ => [pAm, pBm, pCm]

/-- Arbitrary shuffle stream (never consulted in the scenarios using it). -/
def shAny : Nat → List Participant := fun _ => []

/-- Five-participant fixture list. -/
def ps5 : List Participant := [pA, pB, pC, pD, pE]

/-- Exclusion of the pair Dave/Eve as a `no_couples` constraint. -/
def csDE : List AssignmentConstraint := [⟨.no_couples, some ⟨"Dave", "Eve", none⟩⟩]

/-- Constant shuffle stream under which every constrained greedy attempt
on `ps5`/`csDE` strands Eve with only Dave left. -/
def sh5 : Nat → List Participant := fun _ => [pE, pA, pB, pC, pD]

/-- A derangement of `ps5` that respects `csDE` (satisfiability witness). -/
def satAs5 : List Assignment :=
  [⟨"a", "e"⟩, ⟨"b", "a"⟩, ⟨"c", "d"⟩, ⟨"d", "c"⟩, ⟨"e", "b"⟩]

/-- Assignment list the engine actually returns on `ps5`/`csDE`/`sh5`
(via the relaxed fallback; it violates the exclusion). -/
def out5 : List Assignment :=
  [⟨"a", "e"⟩, ⟨"b", "a"⟩, ⟨"c", "b"⟩, ⟨"d", "c"⟩, ⟨"e", "d"⟩]

/-- Token for the `ps5` scenario under `idCipher`. -/
def tok5 : JValue := assignmentsToJson out5

/-- Four-participant fixture list. -/
def ps4 : List Participant := [pA, pB, pC, pD]

/-- Exclusion of the pair Alice/Bob as a `no_couples` constraint. -/
def csAB : List AssignmentConstraint := [⟨.no_couples, some ⟨"Alice", "Bob", none⟩⟩]

/-- Constant shuffle stream on which the first constrained attempt for
`ps4`/`csAB` succeeds. -/
def sh4 : Nat → List Participant := fun _ => [pB, pC, pD, pA]

/-- Assignment list the engine computes on `ps4`/`csAB`/`sh4`. -/
def out4 : List Assignment := [⟨"a", "c"⟩, ⟨"b", "d"⟩, ⟨"c", "b"⟩, ⟨"d", "a"⟩]

/-- Token for the `ps4` scenario under `idCipher`. -/
def tok4 : JValue := assignmentsToJson out4

/-- Two-participant fixture list. -/
def ps7 : List Participant := [pA, pB]

/-- Assignment list in which Alice gives twice (duplicate entry). -/
def as7 : List Assignment := [⟨"a", "b"⟩, ⟨"b", "a"⟩, ⟨"a", "b"⟩]

/-- Honest two-cycle assignment list on `ps7`. -/
def as7w : List Assignment := [⟨"a", "b"⟩, ⟨"b", "a"⟩]

/-- Male/female fixture pair for the clue scenarios. -/
def pM9 : Participant := mkP "m" "Mike" "male" 2015

/-- Female half of the clue fixture pair. -/
def pF9 : Participant := mkP "f" "Fay" "female" 2016

/-- Clue-scenario participant list (counted-gender total 2). -/
def psMF : List Participant := [pM9, pF9]

/-- One exclusion pair for the clue scenario. -/
def exns9 : List Exclusion := [⟨"Mike", "Fay"⟩]

/-- Two-cycle assignment list on `psMF`. -/
def as9 : List Assignment := [⟨"m", "f"⟩, ⟨"f", "m"⟩]

/-- Token for the clue scenario under `idCipher`. -/
def tok9 : JValue := assignmentsToJson as9

theorem jsonToAssignment_toJson (a : Assignment) :
    jsonToAssignment (assignmentToJson a) = some a := rfl

theorem jsonListToAssignments_map (as : List Assignment) :
    jsonListToAssignments (as.map assignmentToJson) = some as := by
  induction as with
  | nil => rfl
  | cons a t ih => simp [jsonListToAssignments, jsonToAssignment_toJson, ih]

theorem json_roundtrip (as : List Assignment) :
    jsonToAssignments (assignmentsToJson as) = some as := by
  simp [assignmentsToJson, jsonToAssignments, jsonListToAssignments_map]

theorem jsonToAssignment_inv {v : JValue} {a : Assignment}
    (h : jsonToAssignment v = some a) : v = assignmentToJson a := by
  unfold jsonToAssignment at h
  split at h
  · cases h; rfl
  · exact absurd h (by simp)

/-- C4: for every assignment list A, decrypting the encryption of A under
the same cipher succeeds and yields exactly the serialised value of A,
and that value parses back to A itself: `decode(encode(A)) == A`. -/
theorem c4_encode_decode_roundtrip {T : Type} (c : Cipher T) (A : List Assignment) :
    decryptAssignments c (encryptAssignments c A) = .ok (assignmentsToJson A) ∧
    jsonToAssignments (assignmentsToJson A) = some A := by
  refine ⟨?_, json_roundtrip A⟩
  unfold decryptAssignments encryptAssignments
  rw [c.dec_enc]

/-- C5 (counterexample): a token that decrypts successfully to the JSON
number 42 — a value that does not parse as a list of {giverId,
receiverId} pairs — is returned by `decryptAssignments` as a successful
result instead of raising the decode error. -/
theorem c5_counterexample :
    decryptAssignments idCipher (JValue.jnum 42) = .ok (JValue.jnum 42) ∧
    jsonToAssignments (JValue.jnum 42) = none := ⟨rfl, rfl⟩

/-- C5 (amended): `decryptAssignments` raises the decode error exactly
when the decrypt-and-parse pipeline fails on the token; it performs no
shape validation, so any successfully decrypted-and-parsed value is
returned as-is, even when it is not a list of {giverId, receiverId}
pairs. -/
theorem c5_decode_error_iff_pipeline_failure {T : Type} (c : Cipher T) (t : T) :
    (c.dec t = none → decryptAssignments c t = .error "Invalid assignment data") ∧
    (∀ v, c.dec t = some v → decryptAssignments c t = .ok v) := by
  constructor
  · intro h; unfold decryptAssignments; rw [h]
  · intro v h; unfold decryptAssignments; rw [h]

/-- Witness for the amended C5 theorem at a concrete token. -/
theorem c5_decode_error_iff_pipeline_failure_witness :
    decryptAssignments idCipher (JValue.jbool true) = .ok (JValue.jbool true) :=
  (c5_decode_error_iff_pipeline_failure idCipher (JValue.jbool true)).2 _ rfl

theorem findGiverLoop_canonical (pid : String) :
    ∀ (xs : List JValue) (as : List Assignment),
      jsonListToAssignments xs = some as →
      findGiverLoop pid xs =
        .ok ((as.find? (fun a => a.giverId == pid)).map assignmentToJson) := by
  intro xs
  induction xs with
  | nil =>
    intro as h
    simp [jsonListToAssignments] at h
    subst h
    rfl
  | cons x t ih =>
    intro as h
    unfold jsonListToAssignments at h
    cases hx : jsonToAssignment x with
    | none => rw [hx] at h; exact absurd h (by simp)
    | some a0 =>
      rw [hx] at h
      cases ht : jsonListToAssignments t with
      | none => rw [ht] at h; exact absurd h (by simp)
      | some rest =>
        rw [ht] at h
        simp at h
        subst h
        have hxshape := jsonToAssignment_inv hx
        subst hxshape
        have hstep : findGiverLoop pid (assignmentToJson a0 :: t) =
            if a0.giverId == pid then .ok (some (assignmentToJson a0))
            else findGiverLoop pid t := rfl
        rw [hstep]
        by_cases hp : (a0.giverId == pid) = true
        · rw [if_pos hp]
          simp [List.find?_cons, hp]
        · have hp2 : (a0.giverId == pid) = false := by simpa using hp
          rw [if_neg hp]
          simp only [List.find?_cons, hp2]
          exact ih rest ht

/-- C6: `getAssignmentForParticipant` is total (the embedding of its
all-enclosing try/catch), converts every decode failure into the
not-found sentinel, and on a well-formed token returns the receiverId of
the first assignment whose giverId equals the requested participant id —
or the sentinel when there is none. -/
theorem c6_lookup_receiver_total {T : Type} (c : Cipher T) (t : T) (pid : String) :
    (∀ e, decryptAssignments c t = .error e →
      getAssignmentForParticipant c t pid = none) ∧
    (∀ v as, c.dec t = some v → jsonToAssignments v = some as →
      getAssignmentForParticipant c t pid =
        ((as.find? (fun a => a.giverId == pid)).map
          (fun a => JValue.jstr a.receiverId))) := by
  constructor
  · intro e he
    unfold getAssignmentForParticipant
    rw [he]
  · intro v as hv hshape
    cases v with
    | jarr xs =>
      have hlist : jsonListToAssignments xs = some as := by
        simpa [jsonToAssignments] using hshape
      have h1 : decryptAssignments c t = .ok (JValue.jarr xs) := by
        unfold decryptAssignments; rw [hv]
      unfold getAssignmentForParticipant
      rw [h1]
      show (match findGiverLoop pid xs with
            | .error _ => none
            | .ok none => none
            | .ok (some x) => jsGetField x "receiverId") = _
      rw [findGiverLoop_canonical pid xs as hlist]
      cases hfind : as.find? (fun a => a.giverId == pid) with
      | none => rfl
      | some a => rfl
    | jstr s => exact absurd hshape (by simp [jsonToAssignments])
    | jnum n => exact absurd hshape (by simp [jsonToAssignments])
    | jbool b => exact absurd hshape (by simp [jsonToAssignments])
    | jnull => exact absurd hshape (by simp [jsonToAssignments])
    | jobj fs => exact absurd hshape (by simp [jsonToAssignments])

/-- Witness for C6 at a concrete token and participant id. -/
theorem c6_lookup_receiver_total_witness :
    getAssignmentForParticipant idCipher
      (assignmentsToJson [⟨"a", "b"⟩, ⟨"b", "a"⟩]) "a" =
    ((([⟨"a", "b"⟩, ⟨"b", "a"⟩] : List Assignment).find?
      (fun a => a.giverId == "a")).map (fun a => JValue.jstr a.receiverId)) :=
  (c6_lookup_receiver_total idCipher _ "a").2 _ _ rfl (json_roundtrip _)

theorem isValidAssignment_acc_irrelevant (g r : Participant)
    (acc : List Assignment) (cs : List AssignmentConstraint) :
    isValidAssignment g r acc cs = isValidAssignment g r [] cs := rfl

theorem isValidAssignment_ne {g r : Participant} {acc : List Assignment}
    {cs : List AssignmentConstraint}
    (h : isValidAssignment g r acc cs = true) : g.id ≠ r.id := by
  intro he
  unfold isValidAssignment at h
  rw [if_pos (by simpa using he)] at h
  exact absurd h (by simp)

theorem isValidAssignment_excluded {g r : Participant} {acc : List Assignment}
    {cs : List AssignmentConstraint}
    (h : isValidAssignment g r acc cs = true) :
    excludedPair cs g.name r.name = false := by
  unfold isValidAssignment at h
  split at h
  · exact absurd h (by simp)
  · rw [excludedPair, List.any_eq_false]
    intro c hc
    have hcall := List.all_eq_true.mp h c hc
    obtain ⟨ty, da⟩ := c
    cases ty with
    | no_same_gender => cases da <;> simp
    | custom => cases da <;> simp
    | no_couples =>
      cases da with
      | none => simp
      | some d =>
        simp only at hcall
        simp only at hcall ⊢
        simp at hcall ⊢
        tauto

theorem pickFirst_spec {g : Participant} {acc : List Assignment}
    {cs : List AssignmentConstraint} :
    ∀ {pool : List Participant} {r : Participant} {pool' : List Participant},
      pickFirst g acc cs pool = some (r, pool') →
      isValidAssignment g r acc cs = true ∧ pool.Perm (r :: pool') := by
  intro pool
  induction pool with
  | nil => intro r pool' h; exact absurd h (by simp [pickFirst])
  | cons r0 rs ih =>
    intro r pool' h
    unfold pickFirst at h
    by_cases hv : isValidAssignment g r0 acc cs = true
    · rw [if_pos hv] at h
      cases h
      exact ⟨hv, List.Perm.refl _⟩
    · rw [if_neg hv] at h
      cases hrec : pickFirst g acc cs rs with
      | none => rw [hrec] at h; exact absurd h (by simp)
      | some pr =>
        obtain ⟨x, rest⟩ := pr
        rw [hrec] at h
        simp only [Option.some.injEq, Prod.mk.injEq] at h
        obtain ⟨hx, hrest⟩ := h
        subst hx; subst hrest
        obtain ⟨hval, hperm⟩ := ih hrec
        exact ⟨hval, (hperm.cons r0).trans (List.Perm.swap x r0 rest)⟩

theorem attemptGo_spec {cs : List AssignmentConstraint} :
    ∀ (gs pool : List Participant) (acc out : List Assignment),
      attemptGo cs gs pool acc = .ok out →
      ∃ used leftover : List Participant,
        pool.Perm (used ++ leftover) ∧
        used.length = gs.length ∧
        out = acc ++ (gs.zip used).map (fun p => (⟨p.1.id, p.2.id⟩ : Assignment)) ∧
        ∀ p ∈ gs.zip used, isValidAssignment p.1 p.2 [] cs = true := by
  intro gs
  induction gs with
  | nil =>
    intro pool acc out h
    unfold attemptGo at h
    simp only [Except.ok.injEq] at h
    subst h
    exact ⟨[], pool, List.Perm.refl _, rfl, by simp, by simp⟩
  | cons g gs ih =>
    intro pool acc out h
    unfold attemptGo at h
    cases hpick : pickFirst g acc cs pool with
    | none => rw [hpick] at h; exact absurd h (by simp)
    | some pr =>
      obtain ⟨r, pool1⟩ := pr
      rw [hpick] at h
      obtain ⟨hval, hperm⟩ := pickFirst_spec hpick
      obtain ⟨used1, leftover, hperm1, hlen, hout, hall⟩ :=
        ih pool1 (acc ++ [⟨g.id, r.id⟩]) out h
      refine ⟨r :: used1, leftover, ?_, by simp [hlen], ?_, ?_⟩
      · exact hperm.trans (hperm1.cons r)
      · rw [hout]
        simp [List.zip_cons_cons]
      · intro p hp
        rw [List.zip_cons_cons, List.mem_cons] at hp
        cases hp with
        | inl hpe => subst hpe; exact hval
        | inr hpt => exact hall p hpt

theorem attemptGo_err {cs : List AssignmentConstraint} :
    ∀ (gs pool : List Participant) (acc : List Assignment) (e : GenError),
      attemptGo cs gs pool acc = .error e →
      ∃ g ∈ gs, e = GenError.noValidReceiver g.name := by
  intro gs
  induction gs with
  | nil => intro pool acc e h; exact absurd h (by simp [attemptGo])
  | cons g gs ih =>
    intro pool acc e h
    unfold attemptGo at h
    cases hpick : pickFirst g acc cs pool with
    | none =>
      rw [hpick] at h
      simp only [Except.error.injEq] at h
      exact ⟨g, List.mem_cons_self g gs, h.symm⟩
    | some pr =>
      obtain ⟨r, pool1⟩ := pr
      rw [hpick] at h
      obtain ⟨g', hg', he⟩ := ih pool1 (acc ++ [⟨g.id, r.id⟩]) e h
      exact ⟨g', List.mem_cons_of_mem g hg', he⟩

theorem attemptAssignment_spec {ps rcv : List Participant}
    {cs : List AssignmentConstraint} {out : List Assignment}
    (h : attemptAssignment ps rcv cs = .ok out) (hperm : rcv.Perm ps) :
    out.map (fun a => a.giverId) = ps.map (fun p => p.id) ∧
    (out.map (fun a => a.receiverId)).Perm (ps.map (fun p => p.id)) ∧
    ∃ pairs : List (Participant × Participant),
      out = pairs.map (fun p => (⟨p.1.id, p.2.id⟩ : Assignment)) ∧
      pairs.map Prod.fst = ps ∧
      ∀ p ∈ pairs, p.1 ∈ ps ∧ p.2 ∈ ps ∧ isValidAssignment p.1 p.2 [] cs = true := by
  obtain ⟨used, leftover, hp1, hlen, hout, hall⟩ := attemptGo_spec ps rcv [] out h
  have hlen2 : rcv.length = ps.length := hperm.length_eq
  have hlen3 : rcv.length = used.length + leftover.length := by
    simpa using hp1.length_eq
  have hleft : leftover = [] := by
    have : leftover.length = 0 := by omega
    exact List.length_eq_zero.mp this
  subst hleft
  have husedperm : used.Perm ps := by
    have h1 : rcv.Perm used := by simpa using hp1
    exact h1.symm.trans hperm
  have hlenu : ps.length ≤ used.length := le_of_eq hlen.symm
  have hfst : (ps.zip used).map Prod.fst = ps := List.map_fst_zip ps used hlenu
  have hsnd : (ps.zip used).map Prod.snd = used :=
    List.map_snd_zip ps used (le_of_eq hlen)
  simp only [List.nil_append] at hout
  subst hout
  refine ⟨?_, ?_, ps.zip used, by simp, hfst, ?_⟩
  · rw [List.map_map]
    conv_rhs => rw [← hfst]
    rw [List.map_map]
    rfl
  · rw [List.map_map]
    have key : List.map ((fun a => a.receiverId) ∘ fun p =>
        ({ giverId := p.1.id, receiverId := p.2.id } : Assignment)) (ps.zip used) =
        used.map (fun p => p.id) := by
      conv_rhs => rw [← hsnd, List.map_map]
      rfl
    rw [key]
    exact husedperm.map (fun p => p.id)
  · intro p hp
    have hm := List.of_mem_zip hp
    exact ⟨hm.1, husedperm.mem_iff.mp hm.2, hall p hp⟩

theorem genLoop_ok {ps : List Participant} {cs : List AssignmentConstraint}
    {sh : Nat → List Participant} {out : List Assignment} :
    ∀ (r i : Nat), genLoop ps cs sh r i = .ok out →
      ∃ (k : Nat) (cs' : List AssignmentConstraint),
        (cs' = cs ∨ cs' = []) ∧ attemptAssignment ps (sh k) cs' = .ok out := by
  intro r
  induction r with
  | zero => intro i h; exact absurd h (by simp [genLoop])
  | succ n ih =>
    intro i h
    cases n with
    | zero =>
      unfold genLoop at h
      cases hA : attemptAssignment ps (sh i) cs with
      | ok as => rw [hA] at h; cases h; exact ⟨i, cs, Or.inl rfl, hA⟩
      | error e => rw [hA] at h; exact ⟨i + 1, [], Or.inr rfl, h⟩
    | succ m =>
      unfold genLoop at h
      cases hA : attemptAssignment ps (sh i) cs with
      | ok as => rw [hA] at h; cases h; exact ⟨i, cs, Or.inl rfl, hA⟩
      | error e => rw [hA] at h; exact ih (i + 1) h

theorem genLoop_err {ps : List Participant} {cs : List AssignmentConstraint}
    {sh : Nat → List Participant} {e : GenError} :
    ∀ (r i : Nat), 1 ≤ r → genLoop ps cs sh r i = .error e →
      ∃ g ∈ ps, e = GenError.noValidReceiver g.name := by
  intro r
  induction r with
  | zero => intro i hr; omega
  | succ n ih =>
    intro i _ h
    cases n with
    | zero =>
      unfold genLoop at h
      cases hA : attemptAssignment ps (sh i) cs with
      | ok as => rw [hA] at h; exact absurd h (by simp)
      | error e1 =>
        rw [hA] at h
        exact attemptGo_err ps (sh (i + 1)) [] e h
    | succ m =>
      unfold genLoop at h
      cases hA : attemptAssignment ps (sh i) cs with
      | ok as => rw [hA] at h; exact absurd h (by simp)
      | error e1 => rw [hA] at h; exact ih (i + 1) (by omega) h

theorem genLoop_first_success {ps : List Participant}
    {cs : List AssignmentConstraint} {sh : Nat → List Participant}
    {out : List Assignment} :
    ∀ (r i : Nat),
      (∃ j, j < r ∧ ∃ as, attemptAssignment ps (sh (i + j)) cs = .ok as) →
      genLoop ps cs sh r i = .ok out →
      ∃ k, attemptAssignment ps (sh k) cs = .ok out := by
  intro r
  induction r with
  | zero => intro i hj _; obtain ⟨j, hj1, _⟩ := hj; omega
  | succ n ih =>
    intro i hj h
    cases n with
    | zero =>
      unfold genLoop at h
      cases hA : attemptAssignment ps (sh i) cs with
      | ok as => rw [hA] at h; cases h; exact ⟨i, hA⟩
      | error e =>
        obtain ⟨j, hj1, as1, hj2⟩ := hj
        have hj0 : j = 0 := by omega
        subst hj0
        simp only [Nat.add_zero] at hj2
        rw [hA] at hj2
        exact absurd hj2 (by simp)
    | succ m =>
      unfold genLoop at h
      cases hA : attemptAssignment ps (sh i) cs with
      | ok as => rw [hA] at h; cases h; exact ⟨i, hA⟩
      | error e =>
        rw [hA] at h
        obtain ⟨j, hj1, as1, hj2⟩ := hj
        have hjne : j ≠ 0 := by
          intro hj0
          subst hj0
          simp only [Nat.add_zero] at hj2
          rw [hA] at hj2
          exact absurd hj2 (by simp)
        refine ih (i + 1) ⟨j - 1, by omega, as1, ?_⟩ h
        have : i + 1 + (j - 1) = i + j := by omega
        rw [this]
        exact hj2

theorem generateAssignments_ok {T : Type} {c : Cipher T} {ps : List Participant}
    {cs : List AssignmentConstraint} {sh : Nat → List Participant} {t : T}
    (h : generateAssignments c ps cs sh = .ok t) :
    ∃ as, genLoop ps cs sh 100 0 = .ok as ∧
      t = c.enc (assignmentsToJson as) ∧ decodeToken c t = some as := by
  unfold generateAssignments at h
  split at h
  · exact absurd h (by simp)
  · cases hg : genLoop ps cs sh 100 0 with
    | error e => rw [hg] at h; exact absurd h (by simp [Except.map])
    | ok as =>
      rw [hg] at h
      simp only [Except.map, Except.ok.injEq] at h
      refine ⟨as, rfl, h.symm, ?_⟩
      rw [← h]
      unfold decodeToken
      rw [c.dec_enc]
      simp [json_roundtrip]

/-- C1 (amended): for every participant list with pairwise-distinct ids
and every constraint list, whenever `generateAssignments` returns a
token — over every outcome of the random shuffles, on the normal path
and the constraint-relaxed fallback path alike — the assignment set
decoded from that token is a valid derangement: every participant occurs
exactly once as giver and exactly once as receiver, and no assignment is
a self-assignment.  (The distinct-id assumption is forced by the
duplicate-id counterexample.) -/
theorem c1_derangement_validity {T : Type} (c : Cipher T)
    (ps : List Participant) (cs : List AssignmentConstraint)
    (sh : Nat → List Participant) (t : T)
    (hNd : (ps.map (fun p => p.id)).Nodup)
    (hsh : ∀ i, (sh i).Perm ps)
    (h : generateAssignments c ps cs sh = .ok t) :
    ∃ as, decodeToken c t = some as ∧
      (∀ p ∈ ps, as.countP (fun a => a.giverId == p.id) = 1 ∧
                 as.countP (fun a => a.receiverId == p.id) = 1) ∧
      ∀ a ∈ as, a.giverId ≠ a.receiverId := by
  obtain ⟨as, hloop, htok, hdec⟩ := generateAssignments_ok h
  obtain ⟨k, cs', hcs', hatt⟩ := genLoop_ok 100 0 hloop
  obtain ⟨hgiv, hrecv, pairs, hout, hfst, hvalid⟩ := attemptAssignment_spec hatt (hsh k)
  refine ⟨as, hdec, ?_, ?_⟩
  · intro p hp
    have hmem : p.id ∈ ps.map (fun q => q.id) := List.mem_map_of_mem _ hp
    have hcount := List.count_eq_one_of_mem hNd hmem
    constructor
    · calc as.countP (fun a => a.giverId == p.id)
          = as.countP ((fun x => x == p.id) ∘ (fun a => a.giverId)) := rfl
        _ = (as.map (fun a => a.giverId)).countP (fun x => x == p.id) :=
            (List.countP_map _ _ _).symm
        _ = (ps.map (fun q => q.id)).countP (fun x => x == p.id) := by rw [hgiv]
        _ = 1 := by rw [← List.count_eq_countP]; exact hcount
    · calc as.countP (fun a => a.receiverId == p.id)
          = as.countP ((fun x => x == p.id) ∘ (fun a => a.receiverId)) := rfl
        _ = (as.map (fun a => a.receiverId)).countP (fun x => x == p.id) :=
            (List.countP_map _ _ _).symm
        _ = (ps.map (fun q => q.id)).countP (fun x => x == p.id) :=
            hrecv.countP_eq _
        _ = 1 := by rw [← List.count_eq_countP]; exact hcount
  · intro a ha
    rw [hout] at ha
    obtain ⟨pr, hpr, hpra⟩ := List.mem_map.mp ha
    have hne := isValidAssignment_ne (hvalid pr hpr).2.2
    rw [← hpra]
    exact hne

/-- Witness for the amended C1 theorem on a concrete three-participant
scenario. -/
theorem c1_derangement_validity_witness :
    ∃ as, decodeToken idCipher tok3 = some as ∧
      (∀ p ∈ ps3, as.countP (fun a => a.giverId == p.id) = 1 ∧
                  as.countP (fun a => a.receiverId == p.id) = 1) ∧
      ∀ a ∈ as, a.giverId ≠ a.receiverId := by
  have hperm : ([pB, pC, pA] : List Participant).Perm ps3 := by decide
  exact c1_derangement_validity idCipher ps3 [] sh3 tok3 (by decide)
    (fun _ => hperm) rfl

/-- C1 (counterexample): with a participant list that repeats the id "b",
`generateAssignments` returns a token whose decoded assignment set has
the participant with id "b" as giver twice — so the claim, quantified
over every participant list, fails. -/
theorem c1_counterexample :
    (([pB, pB2, pA, pC] : List Participant).Perm psDup) ∧
    psDup.length = 4 ∧
    generateAssignments idCipher psDup [] shDup = .ok tokDup ∧
    decodeToken idCipher tokDup = some asDup ∧
    pB ∈ psDup ∧
    asDup.countP (fun a => a.giverId == pB.id) = 2 :=
  ⟨by decide, rfl, rfl, rfl, by decide, by decide⟩

/-- C2 (amended): `generateAssignments` raises
`InsufficientParticipantsError` exactly when fewer than two participants
are given; every other error that reaches the caller is the
no-valid-receiver error of the single relaxed fallback attempt (whose
greedy scan can still strand a giver), naming some participant of the
input list. -/
theorem c2_error_characterization {T : Type} (c : Cipher T)
    (ps : List Participant) (cs : List AssignmentConstraint)
    (sh : Nat → List Participant) :
    (generateAssignments c ps cs sh = .error .insufficientParticipants ↔
      ps.length < 2) ∧
    (∀ e, generateAssignments c ps cs sh = .error e →
      e = GenError.insufficientParticipants ∨
      ∃ g ∈ ps, e = GenError.noValidReceiver g.name) := by
  constructor
  · constructor
    · intro h
      unfold generateAssignments at h
      split at h
      · assumption
      · exfalso
        cases hg : genLoop ps cs sh 100 0 with
        | ok as => rw [hg] at h; exact absurd h (by simp [Except.map])
        | error e =>
          rw [hg] at h
          simp only [Except.map, Except.error.injEq] at h
          obtain ⟨g, _, hge⟩ := genLoop_err 100 0 (by omega) hg
          rw [h] at hge
          exact absurd hge (by simp)
    · intro hlt
      unfold generateAssignments
      rw [if_pos hlt]
  · intro e h
    unfold generateAssignments at h
    split at h
    · simp only [Except.error.injEq] at h
      exact Or.inl h.symm
    · cases hg : genLoop ps cs sh 100 0 with
      | ok as => rw [hg] at h; exact absurd h (by simp [Except.map])
      | error e1 =>
        rw [hg] at h
        simp only [Except.map, Except.error.injEq] at h
        subst h
        exact Or.inr (genLoop_err 100 0 (by omega) hg)

/-- Witness for the amended C2 theorem: one participant triggers the
insufficient-participants error. -/
theorem c2_error_characterization_witness :
    generateAssignments idCipher [pA] [] shAny = .error .insufficientParticipants :=
  (c2_error_characterization idCipher [pA] [] shAny).1.mpr (by decide)

/-- C2 (counterexample): with three same-gender participants, a
`no_same_gender` constraint, and identity-order shuffles, all 100
attempts fail and the relaxed fallback attempt itself strands the last
giver with only themself, so its no-valid-receiver error — not
`InsufficientParticipantsError` — reaches the caller even though
`participants.length ≥ 2`. -/
theorem c2_counterexample :
    psM.length = 3 ∧
    generateAssignments idCipher psM csG shM =
      .error (.noValidReceiver "Carl") :=
  ⟨rfl, rfl⟩

/-- C3 (amended): whenever at least one of the 100 constrained attempts
succeeds (so the relaxed fallback is not used), the assignment set
decoded from the returned token contains no assignment whose giver and
receiver names match an exclusion pair in either direction (participant
ids assumed pairwise distinct).  Joint satisfiability of the exclusions
alone does not suffice: all 100 random shuffles can defeat the greedy
scan, after which the fallback drops the constraints. -/
theorem c3_constraint_respect {T : Type} (c : Cipher T)
    (ps : List Participant) (cs : List AssignmentConstraint)
    (sh : Nat → List Participant) (t : T)
    (hNd : (ps.map (fun p => p.id)).Nodup)
    (hsh : ∀ i, (sh i).Perm ps)
    (hsucc : ∃ j, j < 100 ∧ ∃ as, attemptAssignment ps (sh j) cs = .ok as)
    (h : generateAssignments c ps cs sh = .ok t) :
    ∃ as, decodeToken c t = some as ∧
      ∀ a ∈ as, ∀ g ∈ ps, ∀ r ∈ ps,
        g.id = a.giverId → r.id = a.receiverId →
        excludedPair cs g.name r.name = false := by
  obtain ⟨as, hloop, htok, hdec⟩ := generateAssignments_ok h
  have hsucc' : ∃ j, j < 100 ∧ ∃ as1, attemptAssignment ps (sh (0 + j)) cs = .ok as1 := by
    simpa using hsucc
  obtain ⟨k, hatt⟩ := genLoop_first_success 100 0 hsucc' hloop
  obtain ⟨hgiv, hrecv, pairs, hout, hfst, hvalid⟩ := attemptAssignment_spec hatt (hsh k)
  refine ⟨as, hdec, ?_⟩
  intro a ha g hg r hr hga hra
  rw [hout] at ha
  obtain ⟨pr, hpr, hpra⟩ := List.mem_map.mp ha
  have hinj := List.inj_on_of_nodup_map hNd
  have hg1 : g = pr.1 := by
    refine hinj hg (hvalid pr hpr).1 ?_
    rw [hga, ← hpra]
  have hr1 : r = pr.2 := by
    refine hinj hr (hvalid pr hpr).2.1 ?_
    rw [hra, ← hpra]
  rw [hg1, hr1]
  exact isValidAssignment_excluded (hvalid pr hpr).2.2

/-- Witness for the amended C3 theorem: four participants, one excluded
pair, a shuffle on which the first constrained attempt succeeds. -/
theorem c3_constraint_respect_witness :
    ∃ as, decodeToken idCipher tok4 = some as ∧
      ∀ a ∈ as, ∀ g ∈ ps4, ∀ r ∈ ps4,
        g.id = a.giverId → r.id = a.receiverId →
        excludedPair csAB g.name r.name = false := by
  have hperm : ([pB, pC, pD, pA] : List Participant).Perm ps4 := by decide
  exact c3_constraint_respect idCipher ps4 csAB sh4 tok4 (by decide)
    (fun _ => hperm) ⟨0, by omega, out4, rfl⟩ rfl

/-- C3 (counterexample): the exclusion Dave/Eve on five participants is
jointly satisfiable (`satAs5` is a derangement respecting it), yet under
a shuffle stream on which every constrained greedy attempt strands Eve,
`generateAssignments` falls back to dropping the constraints and returns
a token whose decoded assignment set pairs Eve with Dave — so
satisfiability does not guarantee constraint respect over every shuffle
outcome. -/
theorem c3_counterexample :
    specValidDerangement satAs5 ps5 = true ∧
    specRespectsExclusions satAs5 ps5 csDE = true ∧
    (([pE, pA, pB, pC, pD] : List Participant).Perm ps5) ∧
    generateAssignments idCipher ps5 csDE sh5 = .ok tok5 ∧
    decodeToken idCipher tok5 = some out5 ∧
    specRespectsExclusions out5 ps5 csDE = false :=
  ⟨by decide, by decide, by decide, rfl, rfl, by decide⟩

/-- C10: whenever `generateAssignments` returns a token — for every
shuffle outcome whatsoever — the decoded assignment list has exactly the
length of the input participant list and lists givers in input order
(the i-th assignment's giverId is the i-th participant's id). -/
theorem c10_giver_order_preserved {T : Type} (c : Cipher T)
    (ps : List Participant) (cs : List AssignmentConstraint)
    (sh : Nat → List Participant) (t : T)
    (h : generateAssignments c ps cs sh = .ok t) :
    ∃ as, decodeToken c t = some as ∧ as.length = ps.length ∧
      as.map (fun a => a.giverId) = ps.map (fun p => p.id) := by
  obtain ⟨as, hloop, htok, hdec⟩ := generateAssignments_ok h
  obtain ⟨k, cs', hcs', hatt⟩ := genLoop_ok 100 0 hloop
  obtain ⟨used, leftover, hp1, hlen, hout, hall⟩ :=
    attemptGo_spec ps (sh k) [] as hatt
  simp only [List.nil_append] at hout
  have hfst : (ps.zip used).map Prod.fst = ps :=
    List.map_fst_zip ps used (le_of_eq hlen.symm)
  refine ⟨as, hdec, ?_, ?_⟩
  · rw [hout]
    simp [List.length_zip, hlen]
  · rw [hout, List.map_map]
    conv_rhs => rw [← hfst]
    rw [List.map_map]
    rfl

/-- Witness for C10 on a concrete three-participant scenario. -/
theorem c10_giver_order_preserved_witness :
    ∃ as, decodeToken idCipher tok3 = some as ∧ as.length = ps3.length ∧
      as.map (fun a => a.giverId) = ps3.map (fun p => p.id) :=
  c10_giver_order_preserved idCipher ps3 [] sh3 tok3 rfl

theorem mem_firstDedupAux [BEq α] [LawfulBEq α] (x : α) :
    ∀ (l seen : List α), x ∈ firstDedupAux seen l ↔ x ∈ l ∧ x ∉ seen := by
  intro l
  induction l with
  | nil => intro seen; simp [firstDedupAux]
  | cons a t ih =>
    intro seen
    unfold firstDedupAux
    by_cases hc : seen.contains a = true
    · rw [if_pos hc]
      have hmem : a ∈ seen := by simpa [List.contains] using hc
      rw [ih seen, List.mem_cons]
      constructor
      · rintro ⟨hx, hns⟩; exact ⟨Or.inr hx, hns⟩
      · rintro ⟨hx | hx, hns⟩
        · subst hx; exact absurd hmem hns
        · exact ⟨hx, hns⟩
    · rw [if_neg hc]
      have hmem : a ∉ seen := by
        intro hmm
        exact hc (by simpa [List.contains] using hmm)
      simp only [List.mem_cons, ih (a :: seen)]
      constructor
      · rintro (rfl | ⟨hxt, hns⟩)
        · exact ⟨Or.inl rfl, hmem⟩
        · exact ⟨Or.inr hxt, fun hx => hns (Or.inr hx)⟩
      · rintro ⟨hxa | hxt, hns⟩
        · exact Or.inl hxa
        · by_cases hxa2 : x = a
          · exact Or.inl hxa2
          · exact Or.inr ⟨hxt, fun hcon => hcon.elim hxa2 hns⟩

theorem nodup_firstDedupAux [BEq α] [LawfulBEq α] :
    ∀ (l seen : List α), (firstDedupAux seen l).Nodup := by
  intro l
  induction l with
  | nil => intro seen; simp [firstDedupAux]
  | cons a t ih =>
    intro seen
    unfold firstDedupAux
    by_cases hc : seen.contains a = true
    · rw [if_pos hc]; exact ih seen
    · rw [if_neg hc]
      refine List.nodup_cons.mpr ⟨?_, ih (a :: seen)⟩
      intro hmm
      exact ((mem_firstDedupAux a t (a :: seen)).mp hmm).2 (List.mem_cons_self a seen)

theorem mem_firstDedup [BEq α] [LawfulBEq α] (x : α) (l : List α) :
    x ∈ firstDedup l ↔ x ∈ l := by
  simp [firstDedup, mem_firstDedupAux]

theorem nodup_firstDedup [BEq α] [LawfulBEq α] (l : List α) :
    (firstDedup l).Nodup :=
  nodup_firstDedupAux l []

theorem nodup_subset_length_perm {G P : List String} (hG : G.Nodup) (hP : P.Nodup)
    (hsub : ∀ x ∈ G, x ∈ P) (hlen : G.length = P.length) : G.Perm P := by
  apply List.perm_of_nodup_nodup_toFinset_eq hG hP
  apply Finset.eq_of_subset_of_card_le
  · intro x hx
    rw [List.mem_toFinset] at hx ⊢
    exact hsub x hx
  · rw [List.toFinset_card_of_nodup hG, List.toFinset_card_of_nodup hP, hlen]

/-- C7 (amended): assuming pairwise-distinct participant ids,
`validateAssignments` returns true iff the set of distinct giver ids and
the set of distinct receiver ids each coincide with the participant-id
set.  Multiplicity in the assignment list is not checked: a list in
which some participant gives twice can still validate (see the
counterexample). -/
theorem c7_validate_set_equality (as : List Assignment) (ps : List Participant)
    (hNd : (ps.map (fun p => p.id)).Nodup) :
    validateAssignments as ps = true ↔
      ((firstDedup (as.map (fun a => a.giverId))).Perm (ps.map (fun p => p.id)) ∧
       (firstDedup (as.map (fun a => a.receiverId))).Perm (ps.map (fun p => p.id))) := by
  unfold validateAssignments
  simp only [Bool.and_eq_true, beq_iff_eq, List.all_eq_true]
  constructor
  · rintro ⟨⟨⟨hGlen, hRlen⟩, hGsub⟩, hRsub⟩
    constructor
    · apply nodup_subset_length_perm (nodup_firstDedup _) hNd
      · intro x hx
        have hx2 := hGsub x hx
        have : x ∈ firstDedup (ps.map (fun p => p.id)) := by
          simpa [List.contains] using hx2
        exact (mem_firstDedup _ _).mp this
      · rw [hGlen, List.length_map]
    · apply nodup_subset_length_perm (nodup_firstDedup _) hNd
      · intro x hx
        have hx2 := hRsub x hx
        have : x ∈ firstDedup (ps.map (fun p => p.id)) := by
          simpa [List.contains] using hx2
        exact (mem_firstDedup _ _).mp this
      · rw [hRlen, List.length_map]
  · rintro ⟨hg, hr⟩
    refine ⟨⟨⟨?_, ?_⟩, ?_⟩, ?_⟩
    · rw [hg.length_eq, List.length_map]
    · rw [hr.length_eq, List.length_map]
    · intro x hx
      have : x ∈ firstDedup (ps.map (fun p => p.id)) :=
        (mem_firstDedup _ _).mpr (hg.subset hx)
      simpa [List.contains] using this
    · intro x hx
      have : x ∈ firstDedup (ps.map (fun p => p.id)) :=
        (mem_firstDedup _ _).mpr (hr.subset hx)
      simpa [List.contains] using this

/-- Witness for the amended C7 theorem on a concrete honest two-cycle. -/
theorem c7_validate_set_equality_witness :
    validateAssignments as7w ps7 = true :=
  (c7_validate_set_equality as7w ps7 (by decide)).mpr ⟨by decide, by decide⟩

/-- C7 (counterexample): `validateAssignments` accepts a list in which
Alice gives twice, so "true iff every participant appears exactly once
as a giver and exactly once as a receiver" fails in the only-if
direction — the validator checks set sizes and membership, never
multiplicity. -/
theorem c7_counterexample :
    validateAssignments as7 ps7 = true ∧
    pA ∈ ps7 ∧
    as7.countP (fun a => a.giverId == pA.id) = 2 :=
  ⟨by decide, by decide, by decide⟩

/-- C8: for every token that decodes to a canonical assignment list,
`generateClues` succeeds (never raises for "no clues found") and returns
at most the default target count of ten clues, whatever the participant
list, exclusions, clue shuffle and random pick. -/
theorem c8_clue_count_bound {T : Type} (c : Cipher T) (t : T)
    (ps : List Participant) (exns : List Exclusion)
    (sc : List ClueData → List ClueData) (idx : Nat)
    (v : JValue) (as : List Assignment)
    (hdec : c.dec t = some v) (hshape : jsonToAssignments v = some as) :
    ∃ clues, generateClues c t ps exns sc idx = .ok clues ∧
      clues.length ≤ 10 := by
  refine ⟨generateCluesBody as ps exns sc idx, ?_, ?_⟩
  · unfold generateClues
    rw [hdec]
    show (match jsonToAssignments v with
          | none => Except.error "TypeError"
          | some assignments =>
            Except.ok (generateCluesBody assignments ps exns sc idx)) = _
    rw [hshape]
  · exact List.length_take_le _ _

/-- Witness for C8 at a concrete scenario. -/
theorem c8_clue_count_bound_witness :
    ∃ clues, generateClues idCipher tok9 psMF exns9 (fun l => l) 0 = .ok clues ∧
      clues.length ≤ 10 :=
  c8_clue_count_bound idCipher tok9 psMF exns9 (fun l => l) 0 _ _ rfl
    (json_roundtrip as9)

theorem analyze_excludedPairsCount (ps : List Participant) (exns : List Exclusion) :
    (analyzeParticipantDistribution ps exns).excludedPairsCount = exns.length := rfl

theorem isClueObvious_gender (clue : ClueData) (as : List Assignment)
    (ps : List Participant) (exns : List Exclusion)
    (htype : clue.type = ClueType.gender)
    (hgender : (analyzeParticipantDistribution ps exns).genderDistribution.male +
               (analyzeParticipantDistribution ps exns).genderDistribution.female ≤ 4)
    (hex : exns ≠ []) :
    isClueObvious clue as ps (analyzeParticipantDistribution ps exns) exns = true := by
  simp only [isClueObvious]
  split
  · rfl
  split
  · rfl
  split
  · rfl
  split
  · rfl
  split
  · rfl
  exfalso
  rename_i h1 h2 h3 h4 h5
  apply h4
  simp only [htype, analyze_excludedPairsCount, Bool.and_eq_true, beq_iff_eq,
    decide_eq_true_eq]
  exact ⟨⟨trivial, List.length_pos.mpr hex⟩, hgender⟩

theorem mem_ite_nil_elim {α : Type} {c : Prop} [Decidable c] {l : List α} {cl : α}
    (h : cl ∈ (if c then l else [])) : cl ∈ l := by
  split at h
  · exact h
  · exact absurd h (by simp)

theorem smartBackup_no_gender (as : List Assignment) (ps : List Participant)
    (analysis : ParticipantAnalysis) (exns : List Exclusion) (needed : Nat) :
    ∀ cl ∈ generateSmartBackupClues as ps analysis exns needed,
      cl.type ≠ ClueType.gender := by
  intro cl hcl
  have hcl3 := List.take_subset _ _ hcl
  have hcl4 := (List.mem_filter.mp hcl3).1
  simp only [List.mem_append] at hcl4
  rcases hcl4 with ((((h | h) | h) | h) | h) | h <;>
  · repeat replace h := mem_ite_nil_elim h
    simp only [List.mem_singleton] at h
    subst h
    simp

/-- C9: for every token decoding to a canonical assignment list, if the
counted-gender population (males plus females) is at most 4 and at least
one exclusion pair is supplied, `generateClues` returns no gender-typed
clue: the obviousness filter drops every gender-typed candidate, and the
backfill tier produces none (its clues are all specific- or year-typed). -/
theorem c9_gender_clue_suppression {T : Type} (c : Cipher T) (t : T)
    (ps : List Participant) (exns : List Exclusion)
    (sc : List ClueData → List ClueData) (idx : Nat)
    (v : JValue) (as : List Assignment)
    (hdec : c.dec t = some v) (hshape : jsonToAssignments v = some as)
    (hgender : (analyzeParticipantDistribution ps exns).genderDistribution.male +
               (analyzeParticipantDistribution ps exns).genderDistribution.female ≤ 4)
    (hex : exns ≠ [])
    (hsc : ∀ l, (sc l).Perm l) :
    ∀ clues, generateClues c t ps exns sc idx = .ok clues →
      ∀ cl ∈ clues, cl.type ≠ ClueType.gender := by
  intro clues hclue cl hcl
  have hgen : generateClues c t ps exns sc idx =
      .ok (generateCluesBody as ps exns sc idx) := by
    unfold generateClues
    rw [hdec]
    show (match jsonToAssignments v with
          | none => Except.error "TypeError"
          | some assignments =>
            Except.ok (generateCluesBody assignments ps exns sc idx)) = _
    rw [hshape]
  rw [hgen] at hclue
  simp only [Except.ok.injEq] at hclue
  subst hclue
  intro htype
  set nonObvious := (generateGenderGiftingClues as ps exns ++
      generateYearGiftingClues as ps ++
      generateSpecificPatternClues as ps idx).filter (fun clue =>
        !isClueObvious clue as ps (analyzeParticipantDistribution ps exns) exns)
    with hno
  set shuffled := sc nonObvious with hsf
  have hexp : generateCluesBody as ps exns sc idx =
      (if shuffled.length < 10 then
        shuffled ++ generateSmartBackupClues as ps
          (analyzeParticipantDistribution ps exns) exns (10 - shuffled.length)
      else shuffled).take 10 := rfl
  rw [hexp] at hcl
  have hcl2 := List.take_subset _ _ hcl
  have hmem : cl ∈ shuffled ∨ cl ∈ generateSmartBackupClues as ps
      (analyzeParticipantDistribution ps exns) exns (10 - shuffled.length) := by
    split at hcl2
    · rw [List.mem_append] at hcl2
      exact hcl2
    · exact Or.inl hcl2
  cases hmem with
  | inl hsh =>
    have hclno : cl ∈ nonObvious := (hsc nonObvious).mem_iff.mp hsh
    have hfilter := (List.mem_filter.mp hclno).2
    rw [isClueObvious_gender cl as ps exns htype hgender hex] at hfilter
    exact absurd hfilter (by simp)
  | inr hbk =>
    exact smartBackup_no_gender as ps _ exns _ cl hbk htype

/-- Witness for C9 at a concrete scenario: two participants (one male,
one female), one exclusion pair. -/
theorem c9_gender_clue_suppression_witness :
    ∃ clues, generateClues idCipher tok9 psMF exns9 (fun l => l) 0 = .ok clues ∧
      ∀ cl ∈ clues, cl.type ≠ ClueType.gender := by
  refine ⟨_, rfl, ?_⟩
  exact c9_gender_clue_suppression idCipher tok9 psMF exns9 (fun l => l) 0 _ _
    rfl (json_roundtrip as9) (by decide) (by decide) (fun l => List.Perm.refl l)
    _ rfl
